import Mathlib

/-!
# Verification of the Indexify index-management core

Shallow embedding of the index-management core of this repository:

* `src/persistence.rs` — the `Respository` metadata catalog (`create_index`,
  `get_index`) over a transactional relational store;
* `src/index.rs` — `IndexManager::create_index`, `Index::add_texts`,
  `Index::search`;
* `src/vectordbs/qdrant.rs` — `QdrantDb::add_embedding` (content-addressed
  point ids via MD5), upsert semantics and search decoding.

Conventions of the embedding:

* Rust `HashMap<String, String>` metadata is modeled as a
  `List (String × String)` holding the map's key–value pairs **in the map's
  iteration order**.  Rust's `HashMap` iteration order is unspecified (hash
  seeds are randomized per map instance), so every permutation of the pairs
  is a possible value of this list; theorems quantify over it.
* Machine integers are `Nat` with explicit reduction `% 2^32` where the
  source wraps (the MD5 core).
* Embedding vectors are `Vec<Vec<f32>>` in the source; their float contents
  are never inspected by the code under verification (only cloned and
  stored), so vectors are modeled as opaque `List Int` values.
* Fallible calls to external collaborators (the relational store, the vector
  store backend, the embedding generator) are modeled by `Except`-valued
  parameters supplying the collaborator's outcome; a Rust `panic!`
  (`unwrap` on `None`, out-of-bounds index) is modeled by an `Option` result
  being `none`.
-/

/-! ## MD5 (executable, over byte lists)

`QdrantDb::add_embedding` computes point ids with the `md5` crate:
`format!("{:x}", hasher.finalize())`.  We embed MD5 itself so ids are
computed exactly as the source computes them. Bytes are `Nat < 256`.
-/

/-- UTF-8 encoding of one scalar value, as the `md5` crate hashes the UTF-8
bytes of the `&str` passed to `Digest::update`. -/
def utf8Bytes (c : Char) : List Nat :=
  let n := c.toNat
  if n < 0x80 then [n]
  else if n < 0x800 then [0xC0 + n / 0x40, 0x80 + n % 0x40]
  else if n < 0x10000 then
    [0xE0 + n / 0x1000, 0x80 + (n / 0x40) % 0x40, 0x80 + n % 0x40]
  else
    [0xF0 + n / 0x40000, 0x80 + (n / 0x1000) % 0x40,
     0x80 + (n / 0x40) % 0x40, 0x80 + n % 0x40]

/-- The UTF-8 bytes of a string. -/
def strBytes (s : String) : List Nat := s.data.flatMap utf8Bytes

def add32 (a b : Nat) : Nat := (a + b) % 4294967296

def not32 (a : Nat) : Nat := Nat.xor 4294967295 a

def rotl32 (x s : Nat) : Nat :=
  Nat.lor ((x <<< s) % 4294967296) (x >>> (32 - s))

/-- MD5 per-round shift amounts. -/
def mdS : List Nat :=
  [7, 12, 17, 22, 7, 12, 17, 22, 7, 12, 17, 22, 7, 12, 17, 22,
   5, 9, 14, 20, 5, 9, 14, 20, 5, 9, 14, 20, 5, 9, 14, 20,
   4, 11, 16, 23, 4, 11, 16, 23, 4, 11, 16, 23, 4, 11, 16, 23,
   6, 10, 15, 21, 6, 10, 15, 21, 6, 10, 15, 21, 6, 10, 15, 21]

/-- MD5 sine-derived round constants. -/
def mdK : List Nat :=
  [0xd76aa478, 0xe8c7b756, 0x242070db, 0xc1bdceee,
   0xf57c0faf, 0x4787c62a, 0xa8304613, 0xfd469501,
   0x698098d8, 0x8b44f7af, 0xffff5bb1, 0x895cd7be,
   0x6b901122, 0xfd987193, 0xa679438e, 0x49b40821,
   0xf61e2562, 0xc040b340, 0x265e5a51, 0xe9b6c7aa,
   0xd62f105d, 0x02441453, 0xd8a1e681, 0xe7d3fbc8,
   0x21e1cde6, 0xc33707d6, 0xf4d50d87, 0x455a14ed,
   0xa9e3e905, 0xfcefa3f8, 0x676f02d9, 0x8d2a4c8a,
   0xfffa3942, 0x8771f681, 0x6d9d6122, 0xfde5380c,
   0xa4beea44, 0x4bdecfa9, 0xf6bb4b60, 0xbebfbc70,
   0x289b7ec6, 0xeaa127fa, 0xd4ef3085, 0x04881d05,
   0xd9d4d039, 0xe6db99e5, 0x1fa27cf8, 0xc4ac5665,
   0xf4292244, 0x432aff97, 0xab9423a7, 0xfc93a039,
   0x655b59c3, 0x8f0ccc92, 0xffeff47d, 0x85845dd1,
   0x6fa87e4f, 0xfe2ce6e0, 0xa3014314, 0x4e0811a1,
   0xf7537e82, 0xbd3af235, 0x2ad7d2bb, 0xeb86d391]

structure MD5State where
  a : Nat
  b : Nat
  c : Nat
  d : Nat
deriving Repr, DecidableEq

/-- Little-endian 32-bit word from four bytes. -/
def leWord (b0 b1 b2 b3 : Nat) : Nat :=
  b0 + 256 * b1 + 65536 * b2 + 16777216 * b3

/-- A 64-byte block as sixteen little-endian 32-bit words. -/
def toWords : List Nat → List Nat
  | b0 :: b1 :: b2 :: b3 :: rest => leWord b0 b1 b2 b3 :: toWords rest
  | _ => []

/-- One of the 64 MD5 rounds on the working state. -/
def md5Round (m : List Nat) (st : MD5State) (i : Nat) : MD5State :=
  let fg : Nat × Nat :=
    if i < 16 then
      (Nat.lor (Nat.land st.b st.c) (Nat.land (not32 st.b) st.d), i)
    else if i < 32 then
      (Nat.lor (Nat.land st.d st.b) (Nat.land (not32 st.d) st.c),
       (5 * i + 1) % 16)
    else if i < 48 then
      (Nat.xor (Nat.xor st.b st.c) st.d, (3 * i + 5) % 16)
    else
      (Nat.xor st.c (Nat.lor st.b (not32 st.d)), (7 * i) % 16)
  let f := add32 (add32 (add32 fg.1 st.a) (mdK.getD i 0)) (m.getD fg.2 0)
  ⟨st.d, add32 st.b (rotl32 f (mdS.getD i 0)), st.b, st.c⟩

/-- Absorb one 64-byte block into the MD5 state. -/
def md5Block (st : MD5State) (block : List Nat) : MD5State :=
  let m := toWords block
  let r := (List.range 64).foldl (md5Round m) st
  ⟨add32 st.a r.a, add32 st.b r.b, add32 st.c r.c, add32 st.d r.d⟩

/-- Little-endian byte rendering: `leBytes k n` is the `k` low bytes of `n`. -/
def leBytes : Nat → Nat → List Nat
  | 0, _ => []
  | k + 1, n => n % 256 :: leBytes k (n / 256)

/-- MD5 padding: `0x80`, zeros to 56 mod 64, then the 64-bit little-endian
bit length. -/
def md5Pad (msg : List Nat) : List Nat :=
  let z := (55 - msg.length % 64 + 64) % 64
  msg ++ [0x80] ++ List.replicate z 0 ++
    leBytes 8 ((msg.length * 8) % 18446744073709551616)

/-- Split a padded message into `n` blocks of 64 bytes. -/
def md5Blocks : Nat → List Nat → List (List Nat)
  | 0, _ => []
  | n + 1, l => if l.isEmpty then [] else l.take 64 :: md5Blocks n (l.drop 64)

def md5Init : MD5State := ⟨0x67452301, 0xefcdab89, 0x98badcfe, 0x10325476⟩

/-- The 16-byte MD5 digest of a byte list. -/
def md5Bytes (msg : List Nat) : List Nat :=
  let p := md5Pad msg
  let st := (md5Blocks (p.length / 64) p).foldl md5Block md5Init
  leBytes 4 st.a ++ leBytes 4 st.b ++ leBytes 4 st.c ++ leBytes 4 st.d

def hexDigit (n : Nat) : Char :=
  if n < 10 then Char.ofNat (48 + n) else Char.ofNat (87 + n)

def byteToHex (b : Nat) : List Char := [hexDigit (b / 16), hexDigit (b % 16)]

/-- Lowercase hex rendering of a digest, as `format!("{:x}", ...)` prints
it: two hex digits per byte, in byte order. -/
def bytesToHex (bs : List Nat) : String := String.mk (bs.flatMap byteToHex)

/-- Hex MD5 digest of a byte list: the id string the source builds with
`format!("{:x}", hasher.finalize())`. -/
def md5Hex (msg : List Nat) : String := bytesToHex (md5Bytes msg)

/-! ## `QdrantDb::add_embedding` (src/vectordbs/qdrant.rs)

Metadata (`attrs : HashMap<String, String>`) is modeled as the list of
key–value pairs in the map's iteration order; `hash_on` is the dedup-field
list stored with the index.
-/

/-- The `QdrantPayload` stored with every point: the chunk `text`, the
`chunk` counter, and the batch metadata serialized back as JSON (kept here
as the attribute pairs themselves). -/
structure QdrantPayload where
  text : String
  chunk : Nat
  metadata : List (String × String)
deriving Repr, DecidableEq

/-- One qdrant point as built by `PointStruct::new(id, embedding, payload)`.
The float vector's contents are never inspected; it is opaque data. -/
structure Point where
  id : String
  vector : List Int
  payload : QdrantPayload
deriving Repr, DecidableEq

/-- The byte sequence fed to the MD5 hasher for one chunk by
`add_embedding`: if `attrs.is_empty()` the chunk text, otherwise the values
of the attrs entries (in the map's iteration order) whose key occurs in
`hash_on`. -/
def dedupHashBytes (attrs : List (String × String)) (hashOn : List String)
    (text : String) : List Nat :=
  if attrs.isEmpty then strBytes text
  else
    ((attrs.filter (fun kv => hashOn.contains kv.1)).map
      (fun kv => strBytes kv.2)).flatten

/-- The hex-encoded point id `format!("{:x}", hasher.finalize())`. -/
def pointId (attrs : List (String × String)) (hashOn : List String)
    (text : String) : String :=
  md5Hex (dedupHashBytes attrs hashOn text)

/-- The point list built by the `for (i, text) in texts.iter().enumerate()`
loop of `add_embedding`, starting the counter at `i`; `none` models the
panic of the indexed access `embeddings[i]` when `i` is out of bounds. -/
def buildPoints (embeddings : List (List Int)) (attrs : List (String × String))
    (hashOn : List String) : Nat → List String → Option (List Point)
  | _, [] => some []
  | i, t :: ts =>
    match embeddings.get? i, buildPoints embeddings attrs hashOn (i + 1) ts with
    | some e, some ps =>
      some (⟨pointId attrs hashOn t, e, ⟨t, i, attrs⟩⟩ :: ps)
    | _, _ => none

/-- Backend-native upsert of one point: insert-or-replace by id. -/
def upsertPoint (coll : List Point) (p : Point) : List Point :=
  if coll.any (fun q => q.id == p.id) then
    coll.map (fun q => if q.id == p.id then p else q)
  else coll ++ [p]

/-- Backend-native upsert of a point batch (`upsert_points`): later points
overwrite earlier ones carrying the same id. -/
def upsertPoints (coll : List Point) (ps : List Point) : List Point :=
  ps.foldl upsertPoint coll

/-- `QdrantDb::add_embedding` applied to a collection state: build one point
per text and upsert the batch. `none` models the out-of-bounds panic. -/
def addEmbedding (coll : List Point) (embeddings : List (List Int))
    (texts : List String) (attrs : List (String × String))
    (hashOn : List String) : Option (List Point) :=
  (buildPoints embeddings attrs hashOn 0 texts).map (upsertPoints coll)

/-- `QdrantDb::num_vectors`: the backend's exact point count. -/
def numVectors (coll : List Point) : Nat := coll.length

/-- The search result decoded from a stored payload (src/vectordbs/qdrant.rs
`search`). -/
structure SearchResult where
  texts : String
  metadata : List (String × String)
deriving Repr, DecidableEq

/-- `QdrantDb::search` result decoding: up to `k` stored points come back
and each payload is decoded into a `SearchResult`. The backend's similarity
ranking over float vectors is outside this embedding; results are drawn
from the collection in collection order. -/
def searchResults (coll : List Point) (k : Nat) : List SearchResult :=
  (coll.take k).map (fun p => ⟨p.payload.text, p.payload.metadata⟩)

/-! ## `Respository` (src/persistence.rs) -/

inductive MetricKind where
  | dot
  | euclidean
  | cosine
deriving Repr, DecidableEq

/-- `CreateIndexParams` from src/vectordbs/mod.rs as used by
src/persistence.rs (with the `unique_params` dedup-field list). -/
structure CreateIndexParams where
  name : String
  vector_dim : Nat
  metric : MetricKind
  unique_params : Option (List String)
deriving Repr, DecidableEq

/-- One catalog row (`entity::index::Model`); `vector_db_params` is `NotSet`
at creation and omitted. -/
structure IndexModel where
  name : String
  embedding_model : String
  text_splitter : String
  vector_db : String
  unique_params : Option String
deriving Repr, DecidableEq

/-- `serde_json::to_string` of the unique-params list (a plain JSON string
array; escaping inside the strings is not exercised by any claim). -/
def serializeUniqueParams (l : List String) : String :=
  "[" ++ String.intercalate "," (l.map (fun s => "\"" ++ s ++ "\"")) ++ "]"

def prefixMatch : List Char → List Char → Bool
  | [], _ => true
  | _ :: _, [] => false
  | p :: ps, c :: cs => p == c && prefixMatch ps cs

def subMatch : List Char → List Char → Bool
  | pat, [] => prefixMatch pat []
  | pat, c :: cs => prefixMatch pat (c :: cs) || subMatch pat cs

/-- The uniqueness-violation test of `create_index`:
`db_err.to_string().contains("code: 1555")`. -/
def isUniqueViolationMsg (e : String) : Bool :=
  subMatch "code: 1555".data e.data

/-- `RespositoryError` (the source's spelling), with foreign error payloads
carried as their rendered messages. -/
inductive RespositoryError where
  | databaseError (msg : String)
  | vectorDb (msg : String)
  | indexNotFound (name : String)
  | indexAlreadyExists (name : String)
  | uniqueParamsSerializationError (msg : String)
deriving Repr, DecidableEq

deriving instance DecidableEq for Except

/-- Everything observable about one `Respository::create_index` call: the
returned value, the committed catalog visible to subsequent reads, and
whether the vector store's `create_index` (collection creation) was
invoked. -/
structure CreateIndexOutcome where
  result : Except RespositoryError Unit
  catalog : List IndexModel
  vectordbCalled : Bool
deriving Repr, DecidableEq

/-- `Respository::create_index`. Environmental outcomes of the four
fallible store operations (row insert inside the transaction, vector-store
collection creation, transaction rollback, transaction commit) are supplied
as `Except String Unit` parameters. A transaction that is neither committed
nor successfully rolled back is dropped, which also discards it, so the
committed catalog is unchanged on every non-commit path. -/
def Respository.createIndex (cat : List IndexModel) (embeddingModel : String)
    (params : CreateIndexParams) (vectordbName : String)
    (textSplitter : String) (insertRes vecRes rollbackRes commitRes : Except String Unit) :
    CreateIndexOutcome :=
  let row : IndexModel :=
    { name := params.name, embedding_model := embeddingModel,
      text_splitter := textSplitter, vector_db := vectordbName,
      unique_params := params.unique_params.map serializeUniqueParams }
  match insertRes with
  | .error dbErr =>
    if isUniqueViolationMsg dbErr then
      match rollbackRes with
      | .error re => ⟨.error (.databaseError re), cat, false⟩
      | .ok _ => ⟨.error (.indexAlreadyExists params.name), cat, false⟩
    else
      -- non-uniqueness insert errors are dropped on the floor: execution
      -- falls through to the vector-store call with the transaction
      -- holding no pending row
      match vecRes with
      | .error ve =>
        match rollbackRes with
        | .error re => ⟨.error (.databaseError re), cat, true⟩
        | .ok _ => ⟨.error (.vectorDb ve), cat, true⟩
      | .ok _ =>
        match commitRes with
        | .error ce => ⟨.error (.databaseError ce), cat, true⟩
        | .ok _ => ⟨.ok (), cat, true⟩
  | .ok _ =>
    match vecRes with
    | .error ve =>
      match rollbackRes with
      | .error re => ⟨.error (.databaseError re), cat, true⟩
      | .ok _ => ⟨.error (.vectorDb ve), cat, true⟩
    | .ok _ =>
      match commitRes with
      | .error ce => ⟨.error (.databaseError ce), cat, true⟩
      | .ok _ => ⟨.ok (), cat ++ [row], true⟩

/-- `Respository::get_index`: point lookup by name, `IndexNotFound` when the
filter finds no row. -/
def Respository.getIndex (cat : List IndexModel) (name : String) :
    Except RespositoryError IndexModel :=
  match cat.find? (fun r => r.name == name) with
  | some m => .ok m
  | none => .error (.indexNotFound name)

/-! ## `IndexManager` and `Index` (src/index.rs) -/

/-- `IndexError` from src/index.rs, foreign error payloads carried as
rendered messages and the persistence error structurally. -/
inductive IndexError where
  | embeddingGenerator (msg : String)
  | vectorDb (msg : String)
  | persistence (e : RespositoryError)
  | textSplitter (msg : String)
  | uniqueParamsSerializationError (msg : String)
  | logicError (msg : String)
deriving Repr, DecidableEq

/-- Modelled from the spec: the set of known text-splitter variants.
`src/text_splitters.rs` is not among the provided sources; the spec (§6)
names the `Noop` variant, and §4.3/§7 require resolving a splitter kind to
fail with a validation error exactly when the kind is not a known variant.
Splitter kinds are identified here by their names. -/
def knownSplitterKinds : List String := ["noop"]

/-- Modelled from the spec: `text_splitters::get_splitter`, which resolves
a splitter kind and fails (validation error, surfaced as the
`IndexError::TextSplitter` kind) exactly on unknown kinds. -/
def getSplitter (kind : String) : Except IndexError Unit :=
  if knownSplitterKinds.contains kind then Except.ok ()
  else Except.error (IndexError.textSplitter kind)

/-- Everything observable about one `IndexManager::create_index` call. -/
structure ManagerCreateOutcome where
  result : Except IndexError Unit
  catalog : List IndexModel
  vectordbCalled : Bool
deriving Repr, DecidableEq

/-- `IndexManager::create_index`: resolve the splitter first (discarding the
handle), then delegate to `Respository::create_index`, lifting its error
into `IndexError::Persistence`. The bound backend is the qdrant variant,
whose `name()` is `"qdrant"`. -/
def IndexManager.createIndex (cat : List IndexModel)
    (params : CreateIndexParams) (embeddingModel : String)
    (textSplitter : String)
    (insertRes vecRes rollbackRes commitRes : Except String Unit) :
    ManagerCreateOutcome :=
  match getSplitter textSplitter with
  | .error e => ⟨.error e, cat, false⟩
  | .ok _ =>
    let o := Respository.createIndex cat embeddingModel params "qdrant"
      textSplitter insertRes vecRes rollbackRes commitRes
    match o.result with
    | .error e => ⟨.error (.persistence e), o.catalog, o.vectordbCalled⟩
    | .ok _ => ⟨.ok (), o.catalog, o.vectordbCalled⟩

/-- One ingestion batch (`Text` from src/index.rs): a document list plus a
shared metadata mapping. -/
structure Text where
  texts : List String
  metadata : List (String × String)
deriving Repr, DecidableEq

/-- Modelled from the spec: the `Noop` splitter variant, which "returns the
document unchanged as a single chunk" (§6). Used only to instantiate
theorems; the statements about `add_texts` are parametric in the bound
splitter function. -/
def noopSplit (doc : String) (_maxChunk _overlap : Nat) : List String := [doc]

/-- The chunk list `add_texts` builds for one batch: every document of the
batch run through the bound splitter with size 1000 and overlap 0, the
chunk lists concatenated across the batch's documents in order. -/
def batchChunks (split : String → Nat → Nat → List String) (t : Text) :
    List String :=
  (t.texts.map (fun d => split d 1000 0)).flatten

/-- The body of the `add_texts` loop for one batch: split, embed the whole
chunk list in one call, upsert through `add_embedding`. The embedding
generator is a parameter producing one vector per chunk position it
covers. -/
def addTextsStep (split : String → Nat → Nat → List String)
    (gen : List String → List (List Int)) (hashOn : List String)
    (coll : List Point) (t : Text) : Option (List Point) :=
  addEmbedding coll (gen (batchChunks split t)) (batchChunks split t)
    t.metadata hashOn

/-- `Index::add_texts`: the batches processed in order, each one aborting
the whole call on failure. -/
def addTexts (split : String → Nat → Nat → List String)
    (gen : List String → List (List Int)) (hashOn : List String)
    (coll : List Point) (batches : List Text) : Option (List Point) :=
  batches.foldlM (addTextsStep split gen hashOn)  coll

/-- `Index::search`: embed `vec![query]`, take `.get(0).unwrap()` of the
response (the `none` outcome models that panic), then delegate to the
vector store. `gen` and `vecSearch` are the collaborator outcomes. -/
def Index.search (gen : List String → Except String (List (List Int)))
    (vecSearch : List Int → Nat → Except String (List SearchResult))
    (query : String) (k : Nat) : Option (Except IndexError (List SearchResult)) :=
  match gen [query] with
  | .error e => some (.error (.embeddingGenerator e))
  | .ok [] => none
  | .ok (v :: _) =>
    match vecSearch v k with
    | .error e => some (.error (.vectorDb e))
    | .ok rs => some (.ok rs)

/-! ## Helper lemmas -/

set_option maxRecDepth 200000
set_option maxHeartbeats 2000000

theorem getIndex_not_found (cat : List IndexModel) (name : String)
    (h : ∀ r ∈ cat, r.name ≠ name) :
    Respository.getIndex cat name = .error (.indexNotFound name) := by
  unfold Respository.getIndex
  have hf : cat.find? (fun r => r.name == name) = none := by
    rw [List.find?_eq_none]
    intro r hr
    simp [h r hr]
  rw [hf]

theorem strBytes_append (s t : String) :
    strBytes (s ++ t) = strBytes s ++ strBytes t := by
  simp [strBytes, String.data_append]

theorem strBytes_foldl_append (l : List String) (s : String) :
    strBytes (l.foldl (fun a b => a ++ b) s) =
      strBytes s ++ (l.map strBytes).flatten := by
  induction l generalizing s with
  | nil => simp
  | cons x xs ih => simp [ih, strBytes_append]

theorem strBytes_join (l : List String) :
    strBytes (String.join l) = (l.map strBytes).flatten := by
  have h0 : strBytes "" = [] := rfl
  simpa [String.join, h0] using strBytes_foldl_append l ""

/-! ## Claims C1 and C2: `Respository::create_index` error handling -/

/-- C1: for every `Respository::create_index` call that reaches the vector
store's collection creation and gets an error back, with the rollback
itself succeeding, the metadata transaction is rolled back and the backend
error is returned wrapped as the store error kind: the committed catalog is
exactly the original one, and when the name was not already present a
subsequent `get_index` for it returns `IndexNotFound`. -/
theorem createIndex_vectordb_failure_rollback
    (cat : List IndexModel) (em : String) (p : CreateIndexParams)
    (vn ts : String) (insertRes commitRes : Except String Unit) (e : String)
    (hcall : (Respository.createIndex cat em p vn ts insertRes
        (.error e) (.ok ()) commitRes).vectordbCalled = true) :
    (Respository.createIndex cat em p vn ts insertRes
        (.error e) (.ok ()) commitRes).result = .error (.vectorDb e) ∧
    (Respository.createIndex cat em p vn ts insertRes
        (.error e) (.ok ()) commitRes).catalog = cat ∧
    ((∀ r ∈ cat, r.name ≠ p.name) →
      Respository.getIndex (Respository.createIndex cat em p vn ts insertRes
          (.error e) (.ok ()) commitRes).catalog p.name
        = .error (.indexNotFound p.name)) := by
  cases insertRes with
  | error de =>
    cases hu : isUniqueViolationMsg de with
    | true => exfalso; simp [Respository.createIndex, hu] at hcall
    | false =>
      refine ⟨?_, ?_, fun h => ?_⟩
      · simp [Respository.createIndex, hu]
      · simp [Respository.createIndex, hu]
      · have hc : (Respository.createIndex cat em p vn ts (.error de)
            (.error e) (.ok ()) commitRes).catalog = cat := by
          simp [Respository.createIndex, hu]
        rw [hc]
        exact getIndex_not_found cat p.name h
  | ok _ =>
    refine ⟨?_, ?_, fun h => ?_⟩
    · simp [Respository.createIndex]
    · simp [Respository.createIndex]
    · have hc : (Respository.createIndex cat em p vn ts (.ok ())
          (.error e) (.ok ()) commitRes).catalog = cat := by
        simp [Respository.createIndex]
      rw [hc]
      exact getIndex_not_found cat p.name h

/-- Witness for C1 at a concrete input: fresh catalog, successful insert,
backend refusing the collection creation. -/
theorem createIndex_vectordb_failure_rollback_witness :
    (Respository.createIndex [] "all-minilm-l12-v2" ⟨"hello", 384, .cosine, none⟩
        "qdrant" "noop" (.ok ()) (.error "conn refused") (.ok ()) (.ok ())).result
      = .error (.vectorDb "conn refused") ∧
    (Respository.createIndex [] "all-minilm-l12-v2" ⟨"hello", 384, .cosine, none⟩
        "qdrant" "noop" (.ok ()) (.error "conn refused") (.ok ()) (.ok ())).catalog = [] ∧
    Respository.getIndex (Respository.createIndex [] "all-minilm-l12-v2"
        ⟨"hello", 384, .cosine, none⟩ "qdrant" "noop" (.ok ())
        (.error "conn refused") (.ok ()) (.ok ())).catalog "hello"
      = .error (.indexNotFound "hello") := by
  have h := createIndex_vectordb_failure_rollback [] "all-minilm-l12-v2"
    ⟨"hello", 384, .cosine, none⟩ "qdrant" "noop" (.ok ()) (.ok ())
    "conn refused" (by decide)
  exact ⟨h.1, h.2.1, h.2.2 (by intro r hr; cases hr)⟩

/-- C2 (code bug): a catalog row insert that fails with a non-uniqueness
error (message without "code: 1555") is silently swallowed:
`create_index` proceeds to call the vector store, commits the (row-less)
transaction and returns `Ok(())`, so the caller sees success while
`get_index` for the name still reports `IndexNotFound`. Evaluated at the
failing input. -/
theorem createIndex_swallows_insert_error :
    Respository.createIndex [] "all-minilm-l12-v2" ⟨"hello", 384, .cosine, none⟩
        "qdrant" "noop" (.error "disk I/O error") (.ok ()) (.ok ()) (.ok ())
      = ⟨.ok (), [], true⟩ ∧
    Respository.getIndex [] "hello" = .error (.indexNotFound "hello") := by
  decide

/-! ## Claims C3, C4, C5: the content-addressed id rule -/

/-- C3 counterexample: with empty `dedup_fields` but non-empty batch
metadata, the id is not the hash of the chunk's raw text — the hashing
branch tests `attrs.is_empty()`, not emptiness of `hash_on` — so two chunks
with different texts get the same id (the MD5 of the empty byte string) and
collapse into a single record. -/
theorem emptyDedup_text_hash_cex :
    pointId [("user_id", "5")] [] "a" ≠ md5Hex (strBytes "a") ∧
    pointId [("user_id", "5")] [] "a" = pointId [("user_id", "5")] [] "b" ∧
    (addEmbedding [] [[1], [2]] ["a", "b"] [("user_id", "5")] []).map numVectors
      = some 1 := by
  decide

/-- C3 amended: with empty `dedup_fields`, a record's id is the hex MD5 of
the chunk's raw text only when the batch metadata is also empty; when the
metadata is non-empty, every record's id is the MD5 of the empty byte
string, independent of the chunk text. -/
theorem emptyDedup_text_hash_amended (attrs : List (String × String))
    (hashOn : List String) (t : String) (h : hashOn = []) :
    pointId [] hashOn t = md5Hex (strBytes t) ∧
    (attrs ≠ [] → pointId attrs hashOn t = md5Hex []) := by
  subst h
  constructor
  · simp [pointId, dedupHashBytes]
  · intro ha
    have hne : attrs.isEmpty = false := by
      cases attrs with
      | nil => exact absurd rfl ha
      | cons x xs => rfl
    have hfil : attrs.filter (fun kv => ([] : List String).contains kv.1) = [] := by
      simp
    simp [pointId, dedupHashBytes, hne, hfil]

/-- Witness for C3 amended: both branches evaluated at concrete inputs. -/
theorem emptyDedup_text_hash_amended_witness :
    pointId [] [] "chunk text" = md5Hex (strBytes "chunk text") ∧
    pointId [("user_id", "5")] [] "chunk text" = md5Hex [] := by
  have h1 := emptyDedup_text_hash_amended [] [] "chunk text" rfl
  have h2 := emptyDedup_text_hash_amended [("user_id", "5")] [] "chunk text" rfl
  exact ⟨h1.1, h2.2 (by decide)⟩

/-- C4 counterexample: with non-empty `dedup_fields` the chunk text can
still determine the id (when the batch metadata is empty the code hashes
the text), and when the metadata is non-empty the hashed concatenation
follows the metadata map's iteration order, not `dedup_fields` order: with
pairs iterated as `[("b","y"), ("a","x")]` and `dedup_fields = ["a","b"]`
the id hashes `"yx"`, not `"xy"`. -/
theorem nonemptyDedup_concat_cex :
    pointId [] ["k"] "a" ≠ pointId [] ["k"] "b" ∧
    pointId [("b", "y"), ("a", "x")] ["a", "b"] "t" ≠ md5Hex (strBytes "xy") ∧
    pointId [("b", "y"), ("a", "x")] ["a", "b"] "t" = md5Hex (strBytes "yx") := by
  decide

/-- C4 amended: with non-empty `dedup_fields` and non-empty batch metadata,
a record's id is the MD5 of the concatenation of the metadata values whose
keys appear in `dedup_fields`, taken in the metadata map's iteration order,
and the chunk text then has no influence on the id; with empty metadata
the chunk's raw text is hashed instead. -/
theorem nonemptyDedup_concat_amended (attrs : List (String × String))
    (hashOn : List String) (t : String) (h : attrs ≠ []) :
    pointId attrs hashOn t =
      md5Hex (strBytes (String.join
        ((attrs.filter (fun kv => hashOn.contains kv.1)).map (fun kv => kv.2)))) ∧
    (∀ t2, pointId attrs hashOn t = pointId attrs hashOn t2) := by
  have hne : attrs.isEmpty = false := by
    cases attrs with
    | nil => exact absurd rfl h
    | cons x xs => rfl
  constructor
  · simp only [pointId, dedupHashBytes, hne, Bool.false_eq_true, if_false,
      strBytes_join, List.map_map]
    rfl
  · intro t2
    simp [pointId, dedupHashBytes, hne]

/-- Witness for C4 amended at the idempotency test's metadata. -/
theorem nonemptyDedup_concat_amended_witness :
    pointId [("user_id", "5"), ("url", "https://google.com")]
        ["user_id", "url"] "test" =
      md5Hex (strBytes (String.join ["5", "https://google.com"])) ∧
    pointId [("user_id", "5"), ("url", "https://google.com")]
        ["user_id", "url"] "test" =
      pointId [("user_id", "5"), ("url", "https://google.com")]
        ["user_id", "url"] "test1" := by
  have h := nonemptyDedup_concat_amended
    [("user_id", "5"), ("url", "https://google.com")] ["user_id", "url"]
    "test" (by decide)
  refine ⟨?_, h.2 "test1"⟩
  have := h.1
  simpa using this

/-- C5 counterexample: the id is not a pure function of the sets of inputs
the claim lists. With the same non-empty `dedup_fields` `["user_id"]` and
the same (empty) metadata key–value pairs, two calls differing only in the
chunk text — which, per the claim, should not matter since `dedup_fields`
is non-empty — produce different ids, because with empty metadata the code
hashes the text. -/
theorem id_pure_function_cex :
    pointId [] ["user_id"] "hello" ≠ pointId [] ["user_id"] "world" := by
  decide

/-- C5 amended: the id is a pure function of the sequence of dedup-matched
metadata values in the metadata map's iteration order when the metadata is
non-empty (then the chunk text and the unmatched attributes have no
influence), and of the chunk's raw text alone when the metadata is empty. -/
theorem id_pure_function_amended (attrs1 attrs2 : List (String × String))
    (hashOn hashOn2 : List String) (t1 t2 : String) :
    (attrs1 ≠ [] → attrs2 ≠ [] →
      (attrs1.filter (fun kv => hashOn.contains kv.1)).map (fun kv => kv.2) =
        (attrs2.filter (fun kv => hashOn.contains kv.1)).map (fun kv => kv.2) →
      pointId attrs1 hashOn t1 = pointId attrs2 hashOn t2) ∧
    pointId [] hashOn t1 = pointId [] hashOn2 t1 := by
  constructor
  · intro h1 h2 hvals
    have e1 : attrs1.isEmpty = false := by
      cases attrs1 with
      | nil => exact absurd rfl h1
      | cons x xs => rfl
    have e2 : attrs2.isEmpty = false := by
      cases attrs2 with
      | nil => exact absurd rfl h2
      | cons x xs => rfl
    have hbytes :
        (attrs1.filter (fun kv => hashOn.contains kv.1)).map
            (fun kv => strBytes kv.2) =
          (attrs2.filter (fun kv => hashOn.contains kv.1)).map
            (fun kv => strBytes kv.2) := by
      have := congrArg (List.map strBytes) hvals
      simpa [List.map_map] using this
    simp only [pointId, dedupHashBytes, e1, e2, Bool.false_eq_true, if_false]
    rw [hbytes]
  · rfl

/-- Witness for C5 amended: same matched value under different unmatched
attributes and different texts gives the same id; empty metadata with the
same text gives the same id under different dedup lists. -/
theorem id_pure_function_amended_witness :
    pointId [("user_id", "5"), ("junk", "z")] ["user_id"] "a" =
      pointId [("user_id", "5"), ("other", "w")] ["user_id"] "b" ∧
    pointId [] ["user_id"] "a" = pointId [] ["url"] "a" := by
  have h := id_pure_function_amended [("user_id", "5"), ("junk", "z")]
    [("user_id", "5"), ("other", "w")] ["user_id"] ["url"] "a" "b"
  exact ⟨h.1 (by decide) (by decide) (by decide), h.2⟩

/-! ## Claim C6: idempotent ingestion -/

/-- C6 counterexample: two `add_embedding` calls with identical values for
both dedup fields (`user_id = "5"`, `url = "u"`) but different texts leave
TWO records, not one, when the two metadata maps yield their pairs in
different iteration orders: the first call hashes `"u5"`, the second
`"5u"`. Rust `HashMap` iteration order is unspecified, so both orders are
possible executions. -/
theorem idempotent_ingestion_cex :
    ((addEmbedding [] [[0]] ["first"] [("url", "u"), ("user_id", "5")]
        ["user_id", "url"]).bind
      (fun c1 => addEmbedding c1 [[1]] ["second"]
        [("user_id", "5"), ("url", "u")] ["user_id", "url"])).map numVectors
      = some 2 := by
  decide

/-- C6 amended: with non-empty batch metadata (so the chunk text is not
hashed) fed to both calls as the same pair sequence, the two upserts
compute the same id: after both calls the collection holds exactly one
record and a search returns the second call's text (last write wins). -/
theorem idempotent_ingestion_amended (attrs : List (String × String))
    (hashOn : List String) (t1 t2 : String) (v1 v2 : List Int)
    (c1 c2 : List Point) (h : attrs ≠ [])
    (h1 : addEmbedding [] [v1] [t1] attrs hashOn = some c1)
    (h2 : addEmbedding c1 [v2] [t2] attrs hashOn = some c2) :
    numVectors c2 = 1 ∧ searchResults c2 1 = [⟨t2, attrs⟩] := by
  have hne : attrs.isEmpty = false := by
    cases attrs with
    | nil => exact absurd rfl h
    | cons x xs => rfl
  have hid : pointId attrs hashOn t1 = pointId attrs hashOn t2 := by
    simp [pointId, dedupHashBytes, hne]
  have hc1 : c1 = [⟨pointId attrs hashOn t1, v1, ⟨t1, 0, attrs⟩⟩] := by
    simp [addEmbedding, buildPoints, upsertPoints, upsertPoint] at h1
    exact h1.symm
  have hc2 : c2 = [⟨pointId attrs hashOn t2, v2, ⟨t2, 0, attrs⟩⟩] := by
    rw [hc1] at h2
    simp [addEmbedding, buildPoints, upsertPoints, upsertPoint, hid] at h2
    exact h2.symm
  rw [hc2]
  exact ⟨rfl, rfl⟩

/-- Witness for C6 amended at the conformance test's input (`user_id`,
`url` dedup fields, texts `test` then `test1`). -/
theorem idempotent_ingestion_amended_witness :
    numVectors [⟨pointId [("user_id", "5"), ("url", "https://google.com")]
        ["user_id", "url"] "test1", [1, 3],
        ⟨"test1", 0, [("user_id", "5"), ("url", "https://google.com")]⟩⟩] = 1 ∧
    searchResults [⟨pointId [("user_id", "5"), ("url", "https://google.com")]
        ["user_id", "url"] "test1", [1, 3],
        ⟨"test1", 0, [("user_id", "5"), ("url", "https://google.com")]⟩⟩] 1
      = [⟨"test1", [("user_id", "5"), ("url", "https://google.com")]⟩] := by
  exact idempotent_ingestion_amended
    [("user_id", "5"), ("url", "https://google.com")] ["user_id", "url"]
    "test" "test1" [0, 2] [1, 3] _ _ (by decide) rfl (by decide)

/-! ## Claim C7: `IndexManager::create_index` splitter validation -/

/-- C7: an `IndexManager::create_index` call whose splitter kind is not a
known variant returns the validation error (the `TextSplitter` error kind)
before performing any catalog insert or vector-store call: the catalog is
returned unchanged and the vector store is never invoked, whatever the
stores would have answered. -/
theorem manager_unknown_splitter_no_side_effects (cat : List IndexModel)
    (params : CreateIndexParams) (em ts : String)
    (insertRes vecRes rollbackRes commitRes : Except String Unit)
    (h : ts ∉ knownSplitterKinds) :
    IndexManager.createIndex cat params em ts insertRes vecRes rollbackRes
        commitRes
      = ⟨.error (.textSplitter ts), cat, false⟩ := by
  simp [IndexManager.createIndex, getSplitter, h]

/-- Witness for C7 at a concrete unknown splitter kind. -/
theorem manager_unknown_splitter_no_side_effects_witness :
    IndexManager.createIndex [] ⟨"hello", 384, .cosine, none⟩
        "all-minilm-l12-v2" "recursive" (.ok ()) (.ok ()) (.ok ()) (.ok ())
      = ⟨.error (.textSplitter "recursive"), [], false⟩ := by
  exact manager_unknown_splitter_no_side_effects [] ⟨"hello", 384, .cosine, none⟩
    "all-minilm-l12-v2" "recursive" (.ok ()) (.ok ()) (.ok ()) (.ok ())
    (by decide)

/-! ## Claims C8, C9: the `add_embedding` point loop -/

/-- Characterization of the point-building loop: on success, the produced
points carry the input texts in order, consecutive chunk counters starting
at `i`, and one point per text. -/
theorem buildPoints_fields (embeddings : List (List Int))
    (attrs : List (String × String)) (hashOn : List String) :
    ∀ (ts : List String) (i : Nat) (ps : List Point),
      buildPoints embeddings attrs hashOn i ts = some ps →
      ps.map (fun p => p.payload.text) = ts ∧
      ps.map (fun p => p.payload.chunk) = List.range' i ts.length ∧
      ps.length = ts.length := by
  intro ts
  induction ts with
  | nil =>
    intro i ps h
    simp [buildPoints] at h
    subst h
    simp
  | cons t rest ih =>
    intro i ps h
    simp only [buildPoints] at h
    cases he : embeddings.get? i with
    | none => rw [he] at h; simp at h
    | some e =>
      rw [he] at h
      cases hb : buildPoints embeddings attrs hashOn (i + 1) rest with
      | none => rw [hb] at h; simp at h
      | some qs =>
        rw [hb] at h
        simp only [Option.some.injEq] at h
        obtain ⟨ht, hch, hlen⟩ := ih (i + 1) qs hb
        subst h
        refine ⟨by simp [ht], ?_, by simp [hlen]⟩
        simp [hch, List.range']

/-- The loop succeeds whenever the embeddings list covers positions
`i, …, i + ts.length - 1`. -/
theorem buildPoints_total (embeddings : List (List Int))
    (attrs : List (String × String)) (hashOn : List String) :
    ∀ (ts : List String) (i : Nat),
      i + ts.length ≤ embeddings.length →
      ∃ ps, buildPoints embeddings attrs hashOn i ts = some ps := by
  intro ts
  induction ts with
  | nil => intro i _; exact ⟨[], rfl⟩
  | cons t rest ih =>
    intro i h
    have hi : i < embeddings.length := by
      simp at h
      omega
    cases he : embeddings.get? i with
    | none =>
      rw [List.get?_eq_none] at he
      omega
    | some e =>
      obtain ⟨qs, hqs⟩ := ih (i + 1) (by simp at h ⊢; omega)
      exact ⟨⟨pointId attrs hashOn t, e, ⟨t, i, attrs⟩⟩ :: qs,
        by simp only [buildPoints]; rw [he, hqs]⟩

/-- C8 counterexample: a batch whose `texts` holds two documents, under the
`Noop` splitter (one chunk per document). The second document's only chunk
— chunk 0 of its source document, so the claim requires `chunk_index = 0` —
is stored with `chunk_index = 1`: the counter runs over the batch's
flattened chunk list and does not restart per document. -/
theorem chunk_index_per_document_cex :
    (addTexts noopSplit (fun l => l.map (fun _ => [0])) [] []
        [⟨["docA", "docB"], []⟩]).map
      (fun c => c.map (fun p => (p.payload.text, p.payload.chunk)))
      = some [("docA", 0), ("docB", 1)] ∧
    (addTexts noopSplit (fun l => l.map (fun _ => [0])) [] []
        [⟨["docA", "docB"], []⟩]).map
      (fun c => c.map (fun p => p.payload.chunk))
      ≠ some [0, 0] := by
  decide

/-- C8 amended: every record upserted for a batch carries a `chunk_index`
equal to the position of its chunk in the batch's flattened chunk list
(all documents' splitter outputs concatenated in order) — the counter does
not restart at 0 for each document. -/
theorem chunk_index_per_document_amended
    (split : String → Nat → Nat → List String)
    (gen : List String → List (List Int)) (hashOn : List String) (t : Text)
    (ps : List Point)
    (h : buildPoints (gen (batchChunks split t)) t.metadata hashOn 0
        (batchChunks split t) = some ps) :
    ps.map (fun p => p.payload.text) = batchChunks split t ∧
    ps.map (fun p => p.payload.chunk)
      = List.range (batchChunks split t).length := by
  obtain ⟨ht, hch, _⟩ := buildPoints_fields _ _ _ _ 0 _ h
  refine ⟨ht, ?_⟩
  rw [hch, List.range_eq_range']

/-- Witness for C8 amended: the two-document `Noop` batch. -/
theorem chunk_index_per_document_amended_witness :
    ([⟨pointId [] [] "docA", [0], ⟨"docA", 0, []⟩⟩,
      ⟨pointId [] [] "docB", [0], ⟨"docB", 1, []⟩⟩] : List Point).map
        (fun p => p.payload.text)
      = batchChunks noopSplit ⟨["docA", "docB"], []⟩ ∧
    ([⟨pointId [] [] "docA", [0], ⟨"docA", 0, []⟩⟩,
      ⟨pointId [] [] "docB", [0], ⟨"docB", 1, []⟩⟩] : List Point).map
        (fun p => p.payload.chunk)
      = List.range (batchChunks noopSplit ⟨["docA", "docB"], []⟩).length := by
  exact chunk_index_per_document_amended noopSplit
    (fun l => l.map (fun _ => [0])) [] ⟨["docA", "docB"], []⟩ _ rfl

/-- C9: when `embeddings` and `texts` have equal length, every indexed
access `embeddings[i]` made by the loop is in bounds: `add_embedding`
builds exactly one point per text, never hits the out-of-bounds panic, and
upserts the batch into any collection state. -/
theorem addEmbedding_no_panic (embeddings : List (List Int))
    (texts : List String) (attrs : List (String × String))
    (hashOn : List String) (h : embeddings.length = texts.length) :
    ∃ ps, buildPoints embeddings attrs hashOn 0 texts = some ps ∧
      ps.length = texts.length ∧
      ∀ coll, addEmbedding coll embeddings texts attrs hashOn
        = some (upsertPoints coll ps) := by
  obtain ⟨ps, hps⟩ := buildPoints_total embeddings attrs hashOn texts 0
    (by omega)
  obtain ⟨_, _, hlen⟩ := buildPoints_fields _ _ _ _ 0 _ hps
  refine ⟨ps, hps, hlen, fun coll => ?_⟩
  simp [addEmbedding, hps]

/-- Witness for C9 at the basic search test's input (one 2-dimensional
vector, one text). -/
theorem addEmbedding_no_panic_witness :
    ∃ ps, buildPoints [[0, 2]] [("user_id", "5")] [] 0 ["test"] = some ps ∧
      ps.length = 1 ∧
      ∀ coll, addEmbedding coll [[0, 2]] ["test"] [("user_id", "5")] []
        = some (upsertPoints coll ps) := by
  exact addEmbedding_no_panic [[0, 2]] ["test"] [("user_id", "5")] [] rfl

/-! ## Claim C10: `Index::search` -/

/-- C10: `Index::search` embeds exactly the one-element list `[query]` (its
outcome depends only on the generator's answer to that list) and
unconditionally takes the first vector of the response: a response with at
least one vector proceeds to the vector-store search, an empty response
hits the `.get(0).unwrap()` panic (modeled `none`) instead of returning an
error value, and a generator error is returned as an error value. -/
theorem search_takes_first_vector
    (gen : List String → Except String (List (List Int)))
    (vecSearch : List Int → Nat → Except String (List SearchResult))
    (query : String) (k : Nat) :
    (gen [query] = .ok [] → Index.search gen vecSearch query k = none) ∧
    (∀ v rest, gen [query] = .ok (v :: rest) →
      Index.search gen vecSearch query k
        = some (match vecSearch v k with
            | .error e => .error (.vectorDb e)
            | .ok rs => .ok rs)) ∧
    (∀ e, gen [query] = .error e →
      Index.search gen vecSearch query k
        = some (.error (.embeddingGenerator e))) ∧
    (∀ gen2, gen2 [query] = gen [query] →
      Index.search gen2 vecSearch query k
        = Index.search gen vecSearch query k) := by
  refine ⟨fun h => ?_, fun v rest h => ?_, fun e h => ?_, fun gen2 h => ?_⟩
  · simp [Index.search, h]
  · simp only [Index.search, h]
    cases vecSearch v k <;> rfl
  · simp [Index.search, h]
  · simp [Index.search, h]

/-- Witness for C10: a generator answering the empty vector list makes
`search` panic (`none`); one answering a singleton proceeds. -/
theorem search_takes_first_vector_witness :
    Index.search (fun _ => .ok []) (fun _ _ => .ok []) "pipe" 1 = none ∧
    Index.search (fun _ => .ok [[1, 2]]) (fun _ _ => .ok []) "pipe" 1
      = some (.ok []) := by
  refine ⟨(search_takes_first_vector (fun _ => .ok [])
    (fun _ _ => .ok []) "pipe" 1).1 rfl, ?_⟩
  have h := (search_takes_first_vector (fun _ => .ok [[1, 2]])
    (fun _ _ => .ok []) "pipe" 1).2.1 [1, 2] [] rfl
  simpa using h
